import Mathlib

/-!
# SFSE plugin stub (`Plugin/include/SFSE/Stub.h`)

A shallow embedding of the stub header: the process-wide interface pointer
(`detail::storage`, `LoadInterface::HANDLE`), the accessors built on it,
`AllocTrampoline`, and the `PluginVersionData` record with its setters.

Conventions
* a pointer is its address, a `Nat`; the null pointer is `0`;
* `std::uint32_t` and `char` values are `Nat`s (no arithmetic is done on them);
* a C array is a `List`; the declared extent is kept by `PluginVersionData.WF`;
* `assert(e)` with `e` false and `FATAL(..)` end the run: results live in
  `Except Abort _`.
-/

namespace SFSE

/-! ## Ways a call can end the process -/

/-- How a call ends the process instead of returning. -/
inductive Abort where
  /-- The `FATAL(..)` logging call was reached. -/
  | fatal
  /-- An `assert(..)` was evaluated on a false condition. -/
  | assertion
  deriving DecidableEq, Repr

/-- Modelled from the spec: the `FATAL` logging call of the hooking library
(absent from the sources) terminates the process; no statement after it runs. -/
def FATAL {α : Type} : Except Abort α := .error .fatal

/-- The C `assert`: continues when the condition holds, ends the run otherwise. -/
def assert (c : Bool) : Except Abort Unit :=
  if c then .ok () else .error .assertion

/-! ## `std::ranges::fill` and `std::ranges::copy` on arrays -/

/-- The call `std::ranges::fill(dst, v)`: every element of `dst` becomes `v`. -/
def fill {α : Type} : List α → α → List α
  | [], _ => []
  | _ :: ds, v => v :: fill ds v

/-- The call `std::ranges::copy(src, dst.begin())`: the elements of `src` are
written over the leading elements of `dst`, one by one; the elements of `dst`
behind them are not touched.  (A source longer than the destination would
write out of bounds; every call site guards against it with an assertion, and
the embedding stops at the end of the destination.) -/
def copy {α : Type} : List α → List α → List α
  | [], dst => dst
  | _ :: _, [] => []
  | s :: ss, _ :: ds => s :: copy ss ds

/-! ## The version record -/

/-- The record `PluginVersionData`, data members in declaration order. -/
structure PluginVersionData where
  dataVersion : Nat
  pluginVersion : Nat
  pluginName : List Nat
  author : List Nat
  addressIndependence : Nat
  structureIndependence : Nat
  compatibleVersions : List Nat
  xseMinimum : Nat
  reservedNonBreaking : Nat
  reservedBreaking : Nat
  deriving DecidableEq, Repr

namespace PluginVersionData

/-- The enumerator `kVersion`. -/
def kVersion : Nat := 1

/-- Declared extent of `char pluginName[256]`. -/
def pluginNameSize : Nat := 256

/-- Declared extent of `char author[256]`. -/
def authorSize : Nat := 256

/-- Declared extent of `std::uint32_t compatibleVersions[16]`, the value of
`std::size(compatibleVersions)`. -/
def compatibleVersionsSize : Nat := 16

/-- The arrays of a record have their declared extents. -/
def WF (d : PluginVersionData) : Prop :=
  d.pluginName.length = pluginNameSize ∧
  d.author.length = authorSize ∧
  d.compatibleVersions.length = compatibleVersionsSize

instance (d : PluginVersionData) : Decidable d.WF := by
  unfold WF; infer_instance

/-- A freshly constructed record: the default member initialisers.  The two
independence members have no initialiser, their starting values are the two
arguments. -/
def fresh (addressIndependence structureIndependence : Nat) : PluginVersionData where
  dataVersion := kVersion
  pluginVersion := 0
  pluginName := List.replicate pluginNameSize 0
  author := List.replicate authorSize 0
  addressIndependence := addressIndependence
  structureIndependence := structureIndependence
  compatibleVersions := List.replicate compatibleVersionsSize 0
  xseMinimum := 0
  reservedNonBreaking := 0
  reservedBreaking := 0

/-- The private helper `SetCharBuffer(a_src, a_dst)`; the result is the new
content of the span `a_dst`. -/
def SetCharBuffer (a_src : List Nat) (a_dst : List Nat) : Except Abort (List Nat) := do
  assert (decide (a_src.length < a_dst.length))
  let a_dst := fill a_dst 0
  pure (copy a_src a_dst)

/-- The setter `PluginVersion`. -/
def PluginVersion (d : PluginVersionData) (a_version : Nat) : PluginVersionData :=
  { d with pluginVersion := a_version }

/-- The setter `PluginName`. -/
def PluginName (d : PluginVersionData) (a_plugin : List Nat) : Except Abort PluginVersionData := do
  let buf ← SetCharBuffer a_plugin d.pluginName
  pure { d with pluginName := buf }

/-- The setter `AuthorName`. -/
def AuthorName (d : PluginVersionData) (a_name : List Nat) : Except Abort PluginVersionData := do
  let buf ← SetCharBuffer a_name d.author
  pure { d with author := buf }

/-- Conversion of a `bool` to `std::uint32_t`. -/
def boolToU32 (b : Bool) : Nat := if b then 1 else 0

/-- The setter `UsesSigScanning`. -/
def UsesSigScanning (d : PluginVersionData) (a_value : Bool) : PluginVersionData :=
  { d with addressIndependence := boolToU32 (!a_value) }

/-- The setter `UsesAddressLibrary`. -/
def UsesAddressLibrary (d : PluginVersionData) (a_value : Bool) : PluginVersionData :=
  { d with addressIndependence := boolToU32 a_value }

/-- The setter `HasNoStructUse`. -/
def HasNoStructUse (d : PluginVersionData) (a_value : Bool) : PluginVersionData :=
  { d with structureIndependence := boolToU32 (!a_value) }

/-- The setter `IsLayoutDependent`. -/
def IsLayoutDependent (d : PluginVersionData) (a_value : Bool) : PluginVersionData :=
  { d with structureIndependence := boolToU32 a_value }

/-- The setter `CompatibleVersions`. -/
def CompatibleVersions (d : PluginVersionData) (a_versions : List Nat) :
    Except Abort PluginVersionData := do
  assert (decide (a_versions.length < compatibleVersionsSize - 1))
  pure { d with compatibleVersions := copy a_versions d.compatibleVersions }

/-- The setter `MinimumRequiredXSEVersion`. -/
def MinimumRequiredXSEVersion (d : PluginVersionData) (a_version : Nat) : PluginVersionData :=
  { d with xseMinimum := a_version }

/-! ### Byte layout of the record -/

/-- The data members of `PluginVersionData`. -/
inductive Field where
  | dataVersion
  | pluginVersion
  | pluginName
  | author
  | addressIndependence
  | structureIndependence
  | compatibleVersions
  | xseMinimum
  | reservedNonBreaking
  | reservedBreaking
  deriving DecidableEq, Repr

/-- The data members in the order of their declarations. -/
def Field.declOrder : List Field :=
  [.dataVersion, .pluginVersion, .pluginName, .author, .addressIndependence,
   .structureIndependence, .compatibleVersions, .xseMinimum, .reservedNonBreaking,
   .reservedBreaking]

/-- Size in bytes of `std::uint32_t`. -/
def sizeofU32 : Nat := 4

/-- Size in bytes of a member, from its declared type. -/
def Field.sizeof : Field → Nat
  | .dataVersion => sizeofU32
  | .pluginVersion => sizeofU32
  | .pluginName => pluginNameSize
  | .author => authorSize
  | .addressIndependence => sizeofU32
  | .structureIndependence => sizeofU32
  | .compatibleVersions => compatibleVersionsSize * sizeofU32
  | .xseMinimum => sizeofU32
  | .reservedNonBreaking => sizeofU32
  | .reservedBreaking => sizeofU32

/-- The value `offsetof(PluginVersionData, f)` for members laid out in
declaration order without padding: the sizes of the members declared before `f`
added up. -/
def offsetof (f : Field) : Nat :=
  ((Field.declOrder.takeWhile (fun g => decide (g ≠ f))).map Field.sizeof).sum

/-- The value `sizeof(PluginVersionData)` for the same layout. -/
def sizeof : Nat := (Field.declOrder.map Field.sizeof).sum

/-- The bytes of one member of a record; `enc` gives the bytes of a
`std::uint32_t` value. -/
def Field.bytes (enc : Nat → List Nat) (d : PluginVersionData) : Field → List Nat
  | .dataVersion => enc d.dataVersion
  | .pluginVersion => enc d.pluginVersion
  | .pluginName => d.pluginName
  | .author => d.author
  | .addressIndependence => enc d.addressIndependence
  | .structureIndependence => enc d.structureIndependence
  | .compatibleVersions => (d.compatibleVersions.map enc).flatten
  | .xseMinimum => enc d.xseMinimum
  | .reservedNonBreaking => enc d.reservedNonBreaking
  | .reservedBreaking => enc d.reservedBreaking

/-- The memory image of a record: the bytes of its members, in declaration
order, with nothing in between. -/
def image (enc : Nat → List Nat) (d : PluginVersionData) : List Nat :=
  (Field.declOrder.map (Field.bytes enc d)).flatten

/-- Little-endian bytes of a `std::uint32_t` value (the x64 target). -/
def u32le (v : Nat) : List Nat :=
  [v % 256, v / 256 % 256, v / 65536 % 256, v / 16777216 % 256]

end PluginVersionData

/-! ## The load interface -/

/-- Modelled from the spec: the host side, which is not part of the sources
(`SFSE/PluginAPI.h`, `DKUtil/Hook.hpp`).  Each entry is the function the stub
calls; pointers are addresses, `0` is null.
* `GetPluginHandle this` : the handle-identity accessor of the interface table;
* `QueryInterface this id` : the capability lookup by integer id;
* `AllocateFromBranchPool intfc handle size` : the branch-pool allocation of
  the trampoline interface `intfc`;
* `PageAlloc size` : the page allocator of the local trampoline. -/
structure Host where
  GetPluginHandle : Nat → Nat
  QueryInterface : Nat → Nat → Nat
  AllocateFromBranchPool : Nat → Nat → Nat → Nat
  PageAlloc : Nat → Nat

/-- The process-wide variables of the stub. -/
structure Globals where
  /-- The variable `detail::storage`. -/
  storage : Nat
  /-- The static member `LoadInterface::HANDLE`. -/
  HANDLE : Nat
  deriving DecidableEq, Repr

/-- The variables before any call: `storage = nullptr` and
`HANDLE = static_cast<PluginHandle>(-1)`, where `PluginHandle` (declared in the
host header) is an unsigned integer of `w` bits. -/
def Globals.initial (w : Nat) : Globals where
  storage := 0
  HANDLE := ((-1 : Int) % 2 ^ w).toNat

namespace LoadInterface

/-- Capability identifier `kInvalid`. -/
def kInvalid : Nat := 0

/-- Capability identifier `kMessaging`. -/
def kMessaging : Nat := kInvalid + 1

/-- Capability identifier `kTrampoline`. -/
def kTrampoline : Nat := kMessaging + 1

/-- Enumerator `kTotal`. -/
def kTotal : Nat := kTrampoline + 1

/-- The method `GetProxy`: `assert(this)`, then the same address viewed as the
host table. -/
def GetProxy (this : Nat) : Except Abort Nat := do
  assert (decide (this ≠ 0))
  pure this

/-- The method `GetPluginHandle`. -/
def GetPluginHandle (h : Host) (this : Nat) : Except Abort Nat := do
  let proxy ← GetProxy this
  pure (h.GetPluginHandle proxy)

/-- The method `QueryInterface<T>`: the host's answer, cast to `T*`. -/
def QueryInterface (h : Host) (this : Nat) (a_id : Nat) : Except Abort Nat := do
  let proxy ← GetProxy this
  pure (h.QueryInterface proxy a_id)

end LoadInterface

/-- The function `Init`. -/
def Init (h : Host) (g : Globals) (a_intfc : Nat) : Except Abort Globals := do
  if a_intfc = 0 then
    FATAL
  let g := { g with storage := a_intfc }
  let handle ← LoadInterface.GetPluginHandle h g.storage
  pure { g with HANDLE := handle }

/-- The function `GetLoadInterface`. -/
def GetLoadInterface (g : Globals) : Nat := g.storage

/-- The function `GetTrampolineInterface`. -/
def GetTrampolineInterface (h : Host) (g : Globals) : Except Abort Nat :=
  LoadInterface.QueryInterface h (GetLoadInterface g) LoadInterface.kMessaging

/-- The function `GetMessagingInterface`. -/
def GetMessagingInterface (h : Host) (g : Globals) : Except Abort Nat :=
  LoadInterface.QueryInterface h (GetLoadInterface g) LoadInterface.kTrampoline

/-- Calls that leave the stub during `AllocTrampoline`, in the order made. -/
inductive Event where
  | AllocateFromBranchPool (intfc handle size : Nat)
  | WARN
  | PageAlloc (size : Nat)
  deriving DecidableEq, Repr

/-- The second half of `AllocTrampoline`: the local trampoline's `PageAlloc`,
and `FATAL` when it yields null.  `log` holds the calls made so far. -/
def AllocTrampoline.localPage (h : Host) (a_size : Nat) (log : List Event) :
    List Event × Except Abort Nat :=
  let mem := h.PageAlloc a_size
  if mem ≠ 0 then
    (log ++ [.PageAlloc a_size], .ok mem)
  else
    (log ++ [.PageAlloc a_size], FATAL)

/-- The function `AllocTrampoline`: the calls made, and the pointer returned
or the way the process ended. -/
def AllocTrampoline (h : Host) (g : Globals) (a_size : Nat) (a_useSFSEReserve : Bool) :
    List Event × Except Abort Nat :=
  match GetTrampolineInterface h g with
  | .error e => ([], .error e)
  | .ok intfc =>
    if intfc ≠ 0 ∧ a_useSFSEReserve = true then
      let mem := h.AllocateFromBranchPool intfc g.HANDLE a_size
      if mem ≠ 0 then
        ([.AllocateFromBranchPool intfc g.HANDLE a_size], .ok mem)
      else
        AllocTrampoline.localPage h a_size [.AllocateFromBranchPool intfc g.HANDLE a_size, .WARN]
    else
      AllocTrampoline.localPage h a_size []

/-! ## Runs: sequences of calls -/

/-- One call of a function of the stub. -/
inductive Op where
  | Init (a_intfc : Nat)
  | GetLoadInterface
  | GetTrampolineInterface
  | GetMessagingInterface
  | AllocTrampoline (a_size : Nat) (a_useSFSEReserve : Bool)
  deriving DecidableEq, Repr

/-- The effect of one call on the variables of the stub. -/
def step (h : Host) (g : Globals) : Op → Except Abort Globals
  | .Init a_intfc => Init h g a_intfc
  | .GetLoadInterface => pure g
  | .GetTrampolineInterface => do
    let _ ← GetTrampolineInterface h g
    pure g
  | .GetMessagingInterface => do
    let _ ← GetMessagingInterface h g
    pure g
  | .AllocTrampoline a_size a_useSFSEReserve => do
    let _ ← (AllocTrampoline h g a_size a_useSFSEReserve).2
    pure g

/-- A run: the calls are made one after the other; the first one that ends the
process ends the run. -/
def run (h : Host) (g : Globals) : List Op → Except Abort Globals
  | [] => pure g
  | op :: ops => do
    let g ← step h g op
    run h g ops

/-- The argument of the latest `Init` call among `ops`, or `p` when there is
none. -/
def lastInit (p : Nat) : List Op → Nat
  | [] => p
  | .Init q :: ops => lastInit q ops
  | _ :: ops => lastInit p ops

/-- A host used for concrete runs: handle `7`; the capability lookup answers
identifier `1` (`kMessaging`) with the messaging interface at address `64`,
identifier `2` (`kTrampoline`) with the trampoline interface at address `128`,
and null otherwise; the branch pool serves requests of up to `100` bytes at
address `4096`, the local trampoline up to `1000` bytes at `8192`. -/
def Host.sample : Host where
  GetPluginHandle := fun _ => 7
  QueryInterface := fun _ a_id => if a_id = 1 then 64 else if a_id = 2 then 128 else 0
  AllocateFromBranchPool := fun _ _ size => if size ≤ 100 then 4096 else 0
  PageAlloc := fun size => if size ≤ 1000 then 8192 else 0

/-! ## Lemmas on the array primitives -/

theorem assert_true : assert true = .ok () := rfl

theorem assert_false : assert false = .error .assertion := rfl

theorem fill_eq_replicate {α : Type} (l : List α) (v : α) :
    fill l v = List.replicate l.length v := by
  induction l with
  | nil => rfl
  | cons x xs ih => simp [fill, ih, List.replicate_succ]

theorem copy_eq_append_drop {α : Type} (src dst : List α) (h : src.length ≤ dst.length) :
    copy src dst = src ++ dst.drop src.length := by
  induction src generalizing dst with
  | nil => simp [copy]
  | cons x xs ih =>
    cases dst with
    | nil => simp at h
    | cons y ys =>
      simp only [List.length_cons, Nat.add_le_add_iff_right] at h
      simp [copy, ih ys h]

theorem copy_length {α : Type} (src dst : List α) (h : src.length ≤ dst.length) :
    (copy src dst).length = dst.length := by
  rw [copy_eq_append_drop src dst h]
  simp
  omega

namespace PluginVersionData

theorem SetCharBuffer_ok (a_src a_dst : List Nat) (h : a_src.length < a_dst.length) :
    SetCharBuffer a_src a_dst
      = .ok (a_src ++ List.replicate (a_dst.length - a_src.length) 0) := by
  have hle : a_src.length ≤ (List.replicate a_dst.length 0).length := by
    simp; omega
  simp only [SetCharBuffer, h, decide_True, assert_true, fill_eq_replicate]
  rw [copy_eq_append_drop _ _ hle]
  simp [List.drop_replicate]

theorem SetCharBuffer_error (a_src a_dst : List Nat) (h : ¬ a_src.length < a_dst.length) :
    SetCharBuffer a_src a_dst = .error .assertion := by
  simp only [SetCharBuffer, h, decide_False, assert_false]
  rfl

theorem CompatibleVersions_ok (d : PluginVersionData) (a_versions : List Nat)
    (h : a_versions.length < 15) :
    CompatibleVersions d a_versions
      = .ok { d with compatibleVersions := copy a_versions d.compatibleVersions } := by
  have h' : a_versions.length < compatibleVersionsSize - 1 := h
  simp only [CompatibleVersions, h', decide_True, assert_true]
  rfl

theorem CompatibleVersions_error (d : PluginVersionData) (a_versions : List Nat)
    (h : ¬ a_versions.length < 15) :
    CompatibleVersions d a_versions = .error .assertion := by
  have h' : ¬ a_versions.length < compatibleVersionsSize - 1 := h
  simp only [CompatibleVersions, h', decide_False, assert_false]
  rfl

theorem fresh_WF (a b : Nat) : (fresh a b).WF :=
  ⟨List.length_replicate .., List.length_replicate .., List.length_replicate ..⟩

theorem getElem?_append_drop (vs old : List Nat) (i : Nat) :
    (i < vs.length → (vs ++ old.drop vs.length)[i]? = vs[i]?) ∧
    (vs.length ≤ i → (vs ++ old.drop vs.length)[i]? = old[i]?) := by
  constructor
  · intro hi
    exact List.getElem?_append_left hi
  · intro hi
    rw [List.getElem?_append_right hi, List.getElem?_drop]
    congr 1
    omega

theorem CompatibleVersions_ok_inv (d d' : PluginVersionData) (vs : List Nat) (hd : d.WF)
    (hok : CompatibleVersions d vs = .ok d') :
    vs.length < 15 ∧
    d' = { d with compatibleVersions := vs ++ d.compatibleVersions.drop vs.length } := by
  have hc : d.compatibleVersions.length = 16 := hd.2.2
  by_cases hlt : vs.length < 15
  · rw [CompatibleVersions_ok d vs hlt] at hok
    injection hok with hok
    subst hok
    rw [copy_eq_append_drop _ _ (by omega)]
    exact ⟨hlt, rfl⟩
  · rw [CompatibleVersions_error d vs hlt] at hok
    cases hok

theorem flatten_segment (chunks : List (List Nat)) (i : Nat) (hi : i < chunks.length) :
    (chunks.flatten.drop ((chunks.take i).map List.length).sum).take (chunks.get ⟨i, hi⟩).length
      = chunks.get ⟨i, hi⟩ := by
  induction chunks generalizing i with
  | nil => simp at hi
  | cons c cs ih =>
    cases i with
    | zero => simp
    | succ j =>
      have hj : j < cs.length := by simpa using hi
      have := ih j hj
      simpa [List.drop_append] using this

theorem length_flatten_map (enc : Nat → List Nat) (k : Nat) (henc : ∀ v, (enc v).length = k)
    (l : List Nat) : ((l.map enc).flatten).length = l.length * k := by
  induction l with
  | nil => simp
  | cons x xs ih =>
    simp only [List.map_cons, List.flatten_cons, List.length_append, List.length_cons, henc, ih]
    ring

theorem bytes_length (enc : Nat → List Nat) (d : PluginVersionData)
    (henc : ∀ v, (enc v).length = 4) (hd : d.WF) (f : Field) :
    (f.bytes enc d).length = f.sizeof := by
  obtain ⟨hn, ha, hc⟩ := hd
  cases f
  case pluginName => exact hn
  case author => exact ha
  case compatibleVersions =>
    show ((d.compatibleVersions.map enc).flatten).length = compatibleVersionsSize * sizeofU32
    rw [length_flatten_map enc 4 henc, hc]
    rfl
  all_goals exact henc _

/-! ## Name setting -/

/-- Claim C2.  Setting a name twice leaves what the second call alone leaves:
for a record with well-formed buffers and strings `s1`, `s2` of fewer than 256
bytes, `PluginName s1` followed by `PluginName s2` succeeds and the name
buffer holds the bytes of `s2` followed by `256 - |s2|` zero bytes, whatever
`s1` and the earlier buffer content were; this is the record that
`PluginName s2` alone gives, and setting `s2` twice is setting it once.  The
same holds for `AuthorName` and the author buffer. -/
theorem name_setting_idempotent_leak_free (d : PluginVersionData) (s1 s2 : List Nat)
    (hd : d.WF) (h1 : s1.length < 256) (h2 : s2.length < 256) :
    (PluginName d s1 >>= fun d1 => PluginName d1 s2)
        = .ok { d with pluginName := s2 ++ List.replicate (256 - s2.length) 0 } ∧
    (PluginName d s1 >>= fun d1 => PluginName d1 s2) = PluginName d s2 ∧
    (PluginName d s2 >>= fun d1 => PluginName d1 s2) = PluginName d s2 ∧
    (AuthorName d s1 >>= fun d1 => AuthorName d1 s2)
        = .ok { d with author := s2 ++ List.replicate (256 - s2.length) 0 } ∧
    (AuthorName d s1 >>= fun d1 => AuthorName d1 s2) = AuthorName d s2 ∧
    (AuthorName d s2 >>= fun d1 => AuthorName d1 s2) = AuthorName d s2 := by
  obtain ⟨hn, ha, _⟩ := hd
  have hn' : d.pluginName.length = 256 := hn
  have ha' : d.author.length = 256 := ha
  have key : ∀ (s buf : List Nat), s.length < 256 → buf.length = 256 →
      SetCharBuffer s buf = .ok (s ++ List.replicate (256 - s.length) 0) := by
    intro s buf hs hb
    rw [SetCharBuffer_ok s buf (by omega), hb]
  have len : ∀ s : List Nat, s.length < 256 →
      (s ++ List.replicate (256 - s.length) 0).length = 256 := by
    intro s hs
    simp
    omega
  have pn : ∀ (e : PluginVersionData) (s : List Nat), s.length < 256 →
      e.pluginName.length = 256 →
      PluginName e s = .ok { e with pluginName := s ++ List.replicate (256 - s.length) 0 } := by
    intro e s hs he
    simp only [PluginName, key s e.pluginName hs he]
    rfl
  have an : ∀ (e : PluginVersionData) (s : List Nat), s.length < 256 →
      e.author.length = 256 →
      AuthorName e s = .ok { e with author := s ++ List.replicate (256 - s.length) 0 } := by
    intro e s hs he
    simp only [AuthorName, key s e.author hs he]
    rfl
  have bindok : ∀ (x : PluginVersionData) (f : PluginVersionData → Except Abort PluginVersionData),
      ((Except.ok x : Except Abort PluginVersionData) >>= f) = f x := fun _ _ => rfl
  refine ⟨?_, ?_, ?_, ?_, ?_, ?_⟩
  · rw [pn d s1 h1 hn', bindok, pn _ s2 h2 (len s1 h1)]
  · rw [pn d s1 h1 hn', bindok, pn _ s2 h2 (len s1 h1), pn d s2 h2 hn']
  · rw [pn d s2 h2 hn', bindok, pn _ s2 h2 (len s2 h2)]
  · rw [an d s1 h1 ha', bindok, an _ s2 h2 (len s1 h1)]
  · rw [an d s1 h1 ha', bindok, an _ s2 h2 (len s1 h1), an d s2 h2 ha']
  · rw [an d s2 h2 ha', bindok, an _ s2 h2 (len s2 h2)]

/-- Claim C3.  On a record with well-formed buffers, `PluginName` and
`AuthorName` accept a string exactly when its length is at most 255, and end
in an assertion failure exactly when its length is 256 or more; a string of
256 bytes is rejected, one of 255 bytes is accepted. -/
theorem name_setting_accepts_iff (d : PluginVersionData) (s : List Nat) (c : Nat)
    (hd : d.WF) :
    ((∃ d', PluginName d s = .ok d') ↔ s.length ≤ 255) ∧
    (PluginName d s = .error .assertion ↔ 256 ≤ s.length) ∧
    ((∃ d', AuthorName d s = .ok d') ↔ s.length ≤ 255) ∧
    (AuthorName d s = .error .assertion ↔ 256 ≤ s.length) ∧
    PluginName d (List.replicate 256 c) = .error .assertion ∧
    AuthorName d (List.replicate 256 c) = .error .assertion ∧
    (∃ d', PluginName d (List.replicate 255 c) = .ok d') ∧
    (∃ d', AuthorName d (List.replicate 255 c) = .ok d') := by
  obtain ⟨hn, ha, _⟩ := hd
  have hn' : d.pluginName.length = 256 := hn
  have ha' : d.author.length = 256 := ha
  have pn : ∀ t : List Nat, t.length ≤ 255 → ∃ d', PluginName d t = .ok d' := by
    intro t ht
    refine ⟨{ d with pluginName := t ++ List.replicate (d.pluginName.length - t.length) 0 }, ?_⟩
    simp only [PluginName, SetCharBuffer_ok t d.pluginName (by omega)]
    rfl
  have pe : ∀ t : List Nat, 256 ≤ t.length → PluginName d t = .error .assertion := by
    intro t ht
    simp only [PluginName, SetCharBuffer_error t d.pluginName (by omega)]
    rfl
  have an : ∀ t : List Nat, t.length ≤ 255 → ∃ d', AuthorName d t = .ok d' := by
    intro t ht
    refine ⟨{ d with author := t ++ List.replicate (d.author.length - t.length) 0 }, ?_⟩
    simp only [AuthorName, SetCharBuffer_ok t d.author (by omega)]
    rfl
  have ae : ∀ t : List Nat, 256 ≤ t.length → AuthorName d t = .error .assertion := by
    intro t ht
    simp only [AuthorName, SetCharBuffer_error t d.author (by omega)]
    rfl
  have h256 : 256 ≤ (List.replicate 256 c).length := le_of_eq (List.length_replicate ..).symm
  have h255 : (List.replicate 255 c).length ≤ 255 := le_of_eq (List.length_replicate ..)
  refine ⟨⟨?_, pn s⟩, ⟨?_, pe s⟩, ⟨?_, an s⟩, ⟨?_, ae s⟩, pe _ h256, ae _ h256, pn _ h255, an _ h255⟩
  · rintro ⟨d', h⟩
    by_contra hc
    rw [pe s (by omega)] at h
    cases h
  · intro h
    by_contra hc
    obtain ⟨d', h'⟩ := pn s (by omega)
    rw [h'] at h
    cases h
  · rintro ⟨d', h⟩
    by_contra hc
    rw [ae s (by omega)] at h
    cases h
  · intro h
    by_contra hc
    obtain ⟨d', h'⟩ := an s (by omega)
    rw [h'] at h
    cases h

/-- Witness for C2: a record whose name buffer is full of `9`s, set to
`Hel` and then to `H`. -/
theorem name_setting_idempotent_leak_free_witness :
    ({ fresh 0 0 with pluginName := List.replicate 256 9 } : PluginVersionData).WF ∧
    ([72, 101, 108] : List Nat).length < 256 ∧ ([72] : List Nat).length < 256 ∧
    (PluginName { fresh 0 0 with pluginName := List.replicate 256 9 } [72, 101, 108]
        >>= fun d1 => PluginName d1 [72])
      = .ok { fresh 0 0 with pluginName := [72] ++ List.replicate (256 - 1) 0 } :=
  ⟨⟨List.length_replicate .., List.length_replicate .., List.length_replicate ..⟩,
    by decide, by decide,
    (name_setting_idempotent_leak_free { fresh 0 0 with pluginName := List.replicate 256 9 }
      [72, 101, 108] [72]
      ⟨List.length_replicate .., List.length_replicate .., List.length_replicate ..⟩
      (by decide) (by decide)).1⟩

/-- Witness for C3: on a fresh record the one-byte name `H` is accepted. -/
theorem name_setting_accepts_iff_witness :
    (fresh 0 0).WF ∧ ((∃ d', PluginName (fresh 0 0) [72] = .ok d') ↔ [72].length ≤ 255) :=
  ⟨fresh_WF 0 0, (name_setting_accepts_iff (fresh 0 0) [72] 65 (fresh_WF 0 0)).1⟩

/-! ## The list of compatible versions -/

/-- Claim C4.  `CompatibleVersions` ends in an assertion failure on every list
of more than 15 entries, a list of 16 entries among them; and a call that is
accepted on a well-formed record was given fewer than 16 entries and leaves the
array with its 16 slots: nothing is written behind the array. -/
theorem CompatibleVersions_rejects_over_capacity (d : PluginVersionData)
    (a_versions : List Nat) (v : Nat) :
    (15 < a_versions.length → CompatibleVersions d a_versions = .error .assertion) ∧
    CompatibleVersions d (List.replicate 16 v) = .error .assertion ∧
    (∀ d', d.WF → CompatibleVersions d a_versions = .ok d' →
      a_versions.length < 16 ∧ d'.compatibleVersions.length = 16 ∧ d'.WF) := by
  refine ⟨fun h => CompatibleVersions_error d a_versions (by omega),
    CompatibleVersions_error d _ (by rw [List.length_replicate]; omega), ?_⟩
  intro d' hd hok
  by_cases hlt : a_versions.length < 15
  · rw [CompatibleVersions_ok d a_versions hlt] at hok
    obtain ⟨hn, ha, hc⟩ := hd
    have hc' : d.compatibleVersions.length = 16 := hc
    have hlen : (copy a_versions d.compatibleVersions).length = 16 := by
      rw [copy_length _ _ (by omega), hc']
    injection hok with hok
    subst hok
    exact ⟨by omega, hlen, hn, ha, hlen⟩
  · rw [CompatibleVersions_error d a_versions hlt] at hok
    cases hok

/-- Witness for C4: 16 entries are rejected on a fresh record, 3 entries are
accepted and the array keeps its 16 slots. -/
theorem CompatibleVersions_rejects_over_capacity_witness :
    15 < (List.replicate 16 1).length ∧
    CompatibleVersions (fresh 0 0) (List.replicate 16 1) = .error .assertion ∧
    (fresh 0 0).WF ∧
    CompatibleVersions (fresh 0 0) [1, 2, 3]
      = .ok { fresh 0 0 with compatibleVersions := [1, 2, 3] ++ List.replicate 13 0 } ∧
    ({ fresh 0 0 with compatibleVersions := [1, 2, 3] ++ List.replicate 13 0 } :
      PluginVersionData).compatibleVersions.length = 16 :=
  ⟨by decide,
    (CompatibleVersions_rejects_over_capacity (fresh 0 0) (List.replicate 16 1) 1).1 (by decide),
    fresh_WF 0 0, rfl,
    ((CompatibleVersions_rejects_over_capacity (fresh 0 0) [1, 2, 3] 1).2.2 _ (fresh_WF 0 0)
      rfl).2.1⟩

/-- Claim C9.  `CompatibleVersions` accepts a list exactly when it has at most
14 entries (the guard is `size < 16 - 1`); a list of 15 entries ends in an
assertion failure; and after an accepted call on a freshly constructed record
the array still has 16 slots and the last two of them are zero. -/
theorem CompatibleVersions_accepts_iff (d : PluginVersionData) (a_versions : List Nat)
    (a b : Nat) :
    ((∃ d', CompatibleVersions d a_versions = .ok d') ↔ a_versions.length ≤ 14) ∧
    (CompatibleVersions d a_versions = .error .assertion ↔ 15 ≤ a_versions.length) ∧
    (a_versions.length = 15 → CompatibleVersions d a_versions = .error .assertion) ∧
    (∀ d', CompatibleVersions (fresh a b) a_versions = .ok d' →
      d'.compatibleVersions.length = 16 ∧ d'.compatibleVersions.drop 14 = [0, 0]) := by
  refine ⟨⟨?_, fun h => ⟨_, CompatibleVersions_ok d a_versions (by omega)⟩⟩,
    ⟨?_, fun h => CompatibleVersions_error d a_versions (by omega)⟩,
    fun h => CompatibleVersions_error d a_versions (by omega), ?_⟩
  · rintro ⟨d', h⟩
    by_contra hc
    rw [CompatibleVersions_error d a_versions (by omega)] at h
    cases h
  · intro h
    by_contra hc
    rw [CompatibleVersions_ok d a_versions (by omega)] at h
    cases h
  · intro d' hok
    by_cases hlt : a_versions.length < 15
    · rw [CompatibleVersions_ok _ a_versions hlt] at hok
      injection hok with hok
      subst hok
      have hle : a_versions.length ≤ (List.replicate 16 (0 : Nat)).length := by
        rw [List.length_replicate]; omega
      have hcopy : copy a_versions (fresh a b).compatibleVersions
          = a_versions ++ List.replicate (16 - a_versions.length) 0 := by
        show copy a_versions (List.replicate 16 0) = _
        rw [copy_eq_append_drop _ _ hle, List.drop_replicate]
      show (copy a_versions (fresh a b).compatibleVersions).length = 16 ∧
        (copy a_versions (fresh a b).compatibleVersions).drop 14 = [0, 0]
      rw [hcopy]
      constructor
      · rw [List.length_append, List.length_replicate]; omega
      · rw [List.drop_append_eq_append_drop, List.drop_of_length_le (by omega),
          List.drop_replicate, List.nil_append]
        have : 16 - a_versions.length - (14 - a_versions.length) = 2 := by omega
        rw [this]
        rfl
    · rw [CompatibleVersions_error _ a_versions hlt] at hok
      cases hok

/-- Witness for C9: after `CompatibleVersions {1, 2, 3}` on a fresh record the
last two slots are zero. -/
theorem CompatibleVersions_accepts_iff_witness :
    CompatibleVersions (fresh 0 0) [1, 2, 3]
      = .ok { fresh 0 0 with compatibleVersions := [1, 2, 3] ++ List.replicate 13 0 } ∧
    ({ fresh 0 0 with compatibleVersions := [1, 2, 3] ++ List.replicate 13 0 } :
      PluginVersionData).compatibleVersions.drop 14 = [0, 0] :=
  ⟨rfl, ((CompatibleVersions_accepts_iff (fresh 0 0) [1, 2, 3] 0 0).2.2.2 _ rfl).2⟩

/-- Claim C10.  `CompatibleVersions` does not clear the array.  On a
well-formed record `d`, an accepted call with `n` entries gives the record `d`
with slots `0 .. n-1` of `compatibleVersions` holding the entries in order and
slots `n .. 15` holding what they held before; every other member is
unchanged.  Hence when a list `first` is set and then a list `a_versions` with
fewer entries, the slots from `n` up to the length of `first` still hold the
entries of `first`. -/
theorem CompatibleVersions_keeps_tail (d d' : PluginVersionData) (a_versions : List Nat)
    (hd : d.WF) (hok : CompatibleVersions d a_versions = .ok d') :
    d' = { d with compatibleVersions :=
            a_versions ++ d.compatibleVersions.drop a_versions.length } ∧
    d'.compatibleVersions.length = 16 ∧
    (∀ i, i < a_versions.length → d'.compatibleVersions[i]? = a_versions[i]?) ∧
    (∀ i, a_versions.length ≤ i → d'.compatibleVersions[i]? = d.compatibleVersions[i]?) ∧
    (d'.dataVersion = d.dataVersion ∧ d'.pluginVersion = d.pluginVersion ∧
      d'.pluginName = d.pluginName ∧ d'.author = d.author ∧
      d'.addressIndependence = d.addressIndependence ∧
      d'.structureIndependence = d.structureIndependence ∧
      d'.xseMinimum = d.xseMinimum ∧ d'.reservedNonBreaking = d.reservedNonBreaking ∧
      d'.reservedBreaking = d.reservedBreaking) ∧
    (∀ first d0, d0.WF → CompatibleVersions d0 first = .ok d →
      a_versions.length < first.length →
      (CompatibleVersions d0 first >>= fun e => CompatibleVersions e a_versions) = .ok d' ∧
      ∀ i, a_versions.length ≤ i → i < first.length →
        d'.compatibleVersions[i]? = first[i]?) := by
  have hc : d.compatibleVersions.length = 16 := hd.2.2
  obtain ⟨hlt, heq⟩ := CompatibleVersions_ok_inv d d' a_versions hd hok
  have hcv : d'.compatibleVersions
      = a_versions ++ d.compatibleVersions.drop a_versions.length := by rw [heq]
  have hslots := getElem?_append_drop a_versions d.compatibleVersions
  refine ⟨heq, ?_, ?_, ?_, ?_, ?_⟩
  · rw [hcv, List.length_append, List.length_drop]; omega
  · intro i hi
    rw [hcv]
    exact (hslots i).1 hi
  · intro i hi
    rw [hcv]
    exact (hslots i).2 hi
  · rw [heq]
    exact ⟨rfl, rfl, rfl, rfl, rfl, rfl, rfl, rfl, rfl⟩
  · intro first d0 hd0 hfirst hlen
    have hc0 : d0.compatibleVersions.length = 16 := hd0.2.2
    obtain ⟨hflt, hfeq⟩ := CompatibleVersions_ok_inv d0 d first hd0 hfirst
    have hdcv : d.compatibleVersions
        = first ++ d0.compatibleVersions.drop first.length := by rw [hfeq]
    refine ⟨?_, ?_⟩
    · rw [hfirst]
      exact hok
    · intro i hi him
      rw [hcv, (hslots i).2 hi, hdcv]
      exact (getElem?_append_drop first d0.compatibleVersions i).1 him

/-- Witness for C10: on a fresh record `{1, 2, 3, 4}` is set, then `{9}`; the
slots 1 to 3 still hold `2, 3, 4`. -/
theorem CompatibleVersions_keeps_tail_witness :
    ({ fresh 0 0 with compatibleVersions := [1, 2, 3, 4] ++ List.replicate 12 0 } :
      PluginVersionData).WF ∧
    CompatibleVersions (fresh 0 0) [1, 2, 3, 4]
      = .ok { fresh 0 0 with compatibleVersions := [1, 2, 3, 4] ++ List.replicate 12 0 } ∧
    CompatibleVersions
        { fresh 0 0 with compatibleVersions := [1, 2, 3, 4] ++ List.replicate 12 0 } [9]
      = .ok { fresh 0 0 with compatibleVersions := [9, 2, 3, 4] ++ List.replicate 12 0 } ∧
    ({ fresh 0 0 with compatibleVersions := [9, 2, 3, 4] ++ List.replicate 12 0 } :
      PluginVersionData).compatibleVersions[3]? = [1, 2, 3, 4][3]? :=
  ⟨⟨List.length_replicate .., List.length_replicate .., rfl⟩, rfl, rfl,
    ((CompatibleVersions_keeps_tail
        { fresh 0 0 with compatibleVersions := [1, 2, 3, 4] ++ List.replicate 12 0 }
        { fresh 0 0 with compatibleVersions := [9, 2, 3, 4] ++ List.replicate 12 0 } [9]
        ⟨List.length_replicate .., List.length_replicate .., rfl⟩ rfl).2.2.2.2.2
      [1, 2, 3, 4] (fresh 0 0) (fresh_WF 0 0) rfl (by decide)).2 3 (by decide) (by decide)⟩

/-! ## Layout -/

/-- Claim C1.  With every 32-bit value taking 4 bytes (`henc`), the name
buffers 256 bytes and the version list 16 entries of 4 bytes (`hd`), and the
members laid out in declaration order without padding, the member offsets are
the ones of the `static_assert`s and the size is `0x25C`; for every record the
memory image has `0x25C` bytes and each member's bytes sit at the member's
offset. -/
theorem layout_offsets (enc : Nat → List Nat) (d : PluginVersionData)
    (henc : ∀ v, (enc v).length = 4) (hd : d.WF) :
    offsetof .dataVersion = 0x000 ∧
    offsetof .pluginVersion = 0x004 ∧
    offsetof .pluginName = 0x008 ∧
    offsetof .author = 0x108 ∧
    offsetof .addressIndependence = 0x208 ∧
    offsetof .structureIndependence = 0x20C ∧
    offsetof .compatibleVersions = 0x210 ∧
    offsetof .xseMinimum = 0x250 ∧
    offsetof .reservedNonBreaking = 0x254 ∧
    offsetof .reservedBreaking = 0x258 ∧
    sizeof = 0x25C ∧
    (image enc d).length = 0x25C ∧
    ∀ f : Field, ((image enc d).drop (offsetof f)).take f.sizeof = f.bytes enc d := by
  have hlen := bytes_length enc d henc hd
  refine ⟨rfl, rfl, rfl, rfl, rfl, rfl, rfl, rfl, rfl, rfl, rfl, ?_, ?_⟩
  · simp only [image, Field.declOrder, List.map_cons, List.map_nil, List.flatten_cons,
      List.flatten_nil, List.length_append, List.length_nil, hlen]
    rfl
  · intro f
    have seg := flatten_segment (Field.declOrder.map (Field.bytes enc d))
    have hmap : ∀ k, (((Field.declOrder.map (Field.bytes enc d)).take k).map List.length)
        = ((Field.declOrder.take k).map Field.sizeof) := by
      intro k
      rw [← List.map_take, List.map_map]
      apply List.map_congr_left
      intro g _
      exact hlen g
    cases f
    case dataVersion => simpa [hmap, hlen] using seg 0 (by simp [Field.declOrder])
    case pluginVersion => simpa [hmap, hlen] using seg 1 (by simp [Field.declOrder])
    case pluginName => simpa [hmap, hlen] using seg 2 (by simp [Field.declOrder])
    case author => simpa [hmap, hlen] using seg 3 (by simp [Field.declOrder])
    case addressIndependence => simpa [hmap, hlen] using seg 4 (by simp [Field.declOrder])
    case structureIndependence => simpa [hmap, hlen] using seg 5 (by simp [Field.declOrder])
    case compatibleVersions => simpa [hmap, hlen] using seg 6 (by simp [Field.declOrder])
    case xseMinimum => simpa [hmap, hlen] using seg 7 (by simp [Field.declOrder])
    case reservedNonBreaking => simpa [hmap, hlen] using seg 8 (by simp [Field.declOrder])
    case reservedBreaking => simpa [hmap, hlen] using seg 9 (by simp [Field.declOrder])

/-- Witness for C1: little-endian 32-bit values and a fresh record. -/
theorem layout_offsets_witness :
    (∀ v, (u32le v).length = 4) ∧ (fresh 0 1).WF ∧
    (image u32le (fresh 0 1)).length = 0x25C ∧
    ((image u32le (fresh 0 1)).drop (offsetof .structureIndependence)).take
        Field.structureIndependence.sizeof
      = Field.structureIndependence.bytes u32le (fresh 0 1) :=
  ⟨fun _ => rfl, fresh_WF 0 1,
    (layout_offsets u32le (fresh 0 1) (fun _ => rfl) (fresh_WF 0 1)).2.2.2.2.2.2.2.2.2.2.2.1,
    (layout_offsets u32le (fresh 0 1) (fun _ => rfl) (fresh_WF 0 1)).2.2.2.2.2.2.2.2.2.2.2.2
      .structureIndependence⟩

end PluginVersionData

/-! ## The load interface: lemmas -/

theorem GetProxy_ok (this : Nat) (h : this ≠ 0) : LoadInterface.GetProxy this = .ok this := by
  simp only [LoadInterface.GetProxy, h, ne_eq, not_false_eq_true, decide_True, assert_true]
  rfl

theorem GetProxy_null : LoadInterface.GetProxy 0 = .error .assertion := rfl

theorem QueryInterface_ok (h : Host) (this a_id : Nat) (hthis : this ≠ 0) :
    LoadInterface.QueryInterface h this a_id = .ok (h.QueryInterface this a_id) := by
  simp only [LoadInterface.QueryInterface, GetProxy_ok this hthis]
  rfl

theorem Init_ok (h : Host) (g : Globals) (p : Nat) (hp : p ≠ 0) :
    Init h g p = .ok ⟨p, h.GetPluginHandle p⟩ := by
  simp only [Init, hp, if_false, LoadInterface.GetPluginHandle, GetProxy_ok p hp]
  rfl

theorem Init_null (h : Host) (g : Globals) : Init h g 0 = .error .fatal := rfl

theorem initial_HANDLE (w : Nat) : (Globals.initial w).HANDLE = 2 ^ w - 1 := by
  show ((-1 : Int) % 2 ^ w).toNat = 2 ^ w - 1
  have hpos : 0 < 2 ^ w := Nat.two_pow_pos w
  have hcast : ((2 : Int) ^ w) = ((2 ^ w : Nat) : Int) := by push_cast; rfl
  have h1 : (-1 : Int) = ((2 ^ w - 1 : Nat) : Int) + ((2 ^ w : Nat) : Int) * (-1) := by
    rw [Nat.cast_sub hpos]; push_cast; ring
  rw [hcast, h1, Int.add_mul_emod_self_left]
  rw [Int.emod_eq_of_lt (Int.ofNat_nonneg _) (by exact_mod_cast Nat.sub_lt hpos (by decide))]
  exact Int.toNat_ofNat _

theorem GetTrampolineInterface_ok (h : Host) (g : Globals) (hinit : g.storage ≠ 0) :
    GetTrampolineInterface h g = .ok (h.QueryInterface g.storage 1) :=
  QueryInterface_ok h g.storage 1 hinit

theorem GetMessagingInterface_ok (h : Host) (g : Globals) (hinit : g.storage ≠ 0) :
    GetMessagingInterface h g = .ok (h.QueryInterface g.storage 2) :=
  QueryInterface_ok h g.storage 2 hinit

theorem GetTrampolineInterface_null (h : Host) (g : Globals) (hnull : g.storage = 0) :
    GetTrampolineInterface h g = .error .assertion := by
  unfold GetTrampolineInterface GetLoadInterface
  rw [hnull]
  rfl

theorem AllocTrampoline_init (h : Host) (g : Globals) (a_size : Nat) (a_useSFSEReserve : Bool)
    (hinit : g.storage ≠ 0) :
    AllocTrampoline h g a_size a_useSFSEReserve
      = if h.QueryInterface g.storage 1 ≠ 0 ∧ a_useSFSEReserve = true then
          if h.AllocateFromBranchPool (h.QueryInterface g.storage 1) g.HANDLE a_size ≠ 0 then
            ([.AllocateFromBranchPool (h.QueryInterface g.storage 1) g.HANDLE a_size],
              .ok (h.AllocateFromBranchPool (h.QueryInterface g.storage 1) g.HANDLE a_size))
          else
            AllocTrampoline.localPage h a_size
              [.AllocateFromBranchPool (h.QueryInterface g.storage 1) g.HANDLE a_size, .WARN]
        else
          AllocTrampoline.localPage h a_size [] := by
  simp only [AllocTrampoline, GetTrampolineInterface_ok h g hinit]

theorem AllocTrampoline_null (h : Host) (g : Globals) (a_size : Nat) (a_useSFSEReserve : Bool)
    (hnull : g.storage = 0) :
    AllocTrampoline h g a_size a_useSFSEReserve = ([], .error .assertion) := by
  simp only [AllocTrampoline, GetTrampolineInterface_null h g hnull]

theorem localPage_ok (h : Host) (a_size : Nat) (log : List Event) (hp : h.PageAlloc a_size ≠ 0) :
    AllocTrampoline.localPage h a_size log = (log ++ [.PageAlloc a_size], .ok (h.PageAlloc a_size)) := by
  simp only [AllocTrampoline.localPage, hp, ne_eq, not_false_eq_true, if_true]

theorem localPage_fatal (h : Host) (a_size : Nat) (log : List Event) (hp : h.PageAlloc a_size = 0) :
    AllocTrampoline.localPage h a_size log = (log ++ [.PageAlloc a_size], .error .fatal) := by
  simp only [AllocTrampoline.localPage, hp, ne_eq, not_true_eq_false, if_false]
  rfl

theorem localPage_result (h : Host) (a_size : Nat) (log : List Event) :
    (AllocTrampoline.localPage h a_size log).2
      = if h.PageAlloc a_size ≠ 0 then .ok (h.PageAlloc a_size) else .error .fatal := by
  by_cases hp : h.PageAlloc a_size = 0
  · rw [localPage_fatal h a_size log hp]; simp [hp]
  · rw [localPage_ok h a_size log hp]; simp [hp]

/-! ## Trampoline allocation -/

/-- Claim C5.  `AllocTrampoline` on an initialised stub, with `intfc` the
trampoline interface found by `GetTrampolineInterface`, `pool` the branch
pool's answer and `page` the local page allocator's answer:
* when `intfc` is non-null, `a_useSFSEReserve` is set and `pool` is non-null,
  `pool` is returned and the local allocator is not called;
* otherwise, when `page` is non-null, `page` is returned;
* otherwise the call ends in `FATAL`.
Whatever the input and the state, a pointer that is returned is non-null (on
an uninitialised stub the call ends in the assertion of `GetProxy`). -/
theorem AllocTrampoline_never_null (h : Host) (g : Globals) (a_size : Nat)
    (a_useSFSEReserve : Bool) :
    (g.storage ≠ 0 →
      GetTrampolineInterface h g = .ok (h.QueryInterface g.storage 1) ∧
      (h.QueryInterface g.storage 1 ≠ 0 → a_useSFSEReserve = true →
        h.AllocateFromBranchPool (h.QueryInterface g.storage 1) g.HANDLE a_size ≠ 0 →
        (AllocTrampoline h g a_size a_useSFSEReserve).2
            = .ok (h.AllocateFromBranchPool (h.QueryInterface g.storage 1) g.HANDLE a_size) ∧
        ∀ n, Event.PageAlloc n ∉ (AllocTrampoline h g a_size a_useSFSEReserve).1) ∧
      ((h.QueryInterface g.storage 1 = 0 ∨ a_useSFSEReserve = false ∨
          h.AllocateFromBranchPool (h.QueryInterface g.storage 1) g.HANDLE a_size = 0) →
        (h.PageAlloc a_size ≠ 0 →
          (AllocTrampoline h g a_size a_useSFSEReserve).2 = .ok (h.PageAlloc a_size)) ∧
        (h.PageAlloc a_size = 0 →
          (AllocTrampoline h g a_size a_useSFSEReserve).2 = .error .fatal))) ∧
    (g.storage = 0 → AllocTrampoline h g a_size a_useSFSEReserve = ([], .error .assertion)) ∧
    (∀ mem, (AllocTrampoline h g a_size a_useSFSEReserve).2 = .ok mem → mem ≠ 0) := by
  refine ⟨?_, AllocTrampoline_null h g a_size a_useSFSEReserve, ?_⟩
  · intro hinit
    refine ⟨GetTrampolineInterface_ok h g hinit, ?_, ?_⟩
    · intro hi hr hpool
      rw [AllocTrampoline_init h g a_size a_useSFSEReserve hinit, if_pos ⟨hi, hr⟩, if_pos hpool]
      exact ⟨rfl, by simp⟩
    · intro hcases
      have hres : (AllocTrampoline h g a_size a_useSFSEReserve).2
          = if h.PageAlloc a_size ≠ 0 then .ok (h.PageAlloc a_size) else .error .fatal := by
        rw [AllocTrampoline_init h g a_size a_useSFSEReserve hinit]
        by_cases hc : h.QueryInterface g.storage 1 ≠ 0 ∧ a_useSFSEReserve = true
        · have hpool : h.AllocateFromBranchPool (h.QueryInterface g.storage 1) g.HANDLE a_size = 0 := by
            rcases hcases with h0 | hr | hp
            · exact absurd h0 hc.1
            · rw [hc.2] at hr; cases hr
            · exact hp
          rw [if_pos hc, if_neg (by simp [hpool]), localPage_result]
        · rw [if_neg hc, localPage_result]
      rw [hres]
      exact ⟨fun hp => if_pos hp, fun hp => if_neg (by simp [hp])⟩
  · intro mem hmem
    by_cases hinit : g.storage = 0
    · rw [AllocTrampoline_null h g a_size a_useSFSEReserve hinit] at hmem
      cases hmem
    · rw [AllocTrampoline_init h g a_size a_useSFSEReserve hinit] at hmem
      split_ifs at hmem with hc hpool
      · injection hmem with hmem
        rw [← hmem]; exact hpool
      · rw [localPage_result] at hmem
        split_ifs at hmem with hp
        · injection hmem with hmem
          rw [← hmem]; exact hp
      · rw [localPage_result] at hmem
        split_ifs at hmem with hp
        · injection hmem with hmem
          rw [← hmem]; exact hp

/-- Witness for C5: on the sample host a request of 500 bytes is refused by
the branch pool and served by the local trampoline; the returned pointer is
non-null. -/
theorem AllocTrampoline_never_null_witness :
    (⟨1, 7⟩ : Globals).storage ≠ 0 ∧
    (AllocTrampoline Host.sample ⟨1, 7⟩ 500 true).2 = .ok 8192 ∧
    (AllocTrampoline Host.sample ⟨1, 7⟩ 5 true).2 = .ok 4096 ∧
    (∀ n, Event.PageAlloc n ∉ (AllocTrampoline Host.sample ⟨1, 7⟩ 5 true).1) ∧
    (8192 : Nat) ≠ 0 :=
  ⟨by decide,
    (((AllocTrampoline_never_null Host.sample ⟨1, 7⟩ 500 true).1 (by decide)).2.2
      (Or.inr (Or.inr rfl))).1 (by decide),
    (((AllocTrampoline_never_null Host.sample ⟨1, 7⟩ 5 true).1 (by decide)).2.1
      (by decide) rfl (by decide)).1,
    (((AllocTrampoline_never_null Host.sample ⟨1, 7⟩ 5 true).1 (by decide)).2.1
      (by decide) rfl (by decide)).2,
    (AllocTrampoline_never_null Host.sample ⟨1, 7⟩ 500 true).2.2 8192 rfl⟩

/-! ## Initialisation -/

/-- Claim C6.  `Init p` ends in `FATAL` exactly when `p` is null; it never ends
in an assertion failure; for a non-null `p` it completes, `detail::storage`
is `p` and `HANDLE` is what the host's `GetPluginHandle` gives for `p`.  Before
the call the variables are null and `-1` as a `w`-bit unsigned value. -/
theorem Init_fatal_iff_null (h : Host) (g : Globals) (p w : Nat) :
    (Init h g p = .error .fatal ↔ p = 0) ∧
    Init h g p ≠ .error .assertion ∧
    (p ≠ 0 → Init h g p = .ok ⟨p, h.GetPluginHandle p⟩) ∧
    (p ≠ 0 → Init h (Globals.initial w) p = .ok ⟨p, h.GetPluginHandle p⟩) ∧
    (Globals.initial w).storage = 0 ∧ (Globals.initial w).HANDLE = 2 ^ w - 1 := by
  refine ⟨⟨?_, ?_⟩, ?_, Init_ok h g p, Init_ok h _ p, rfl, initial_HANDLE w⟩
  · intro hf
    by_contra hp
    rw [Init_ok h g p hp] at hf
    cases hf
  · intro hp
    rw [hp]
    rfl
  · by_cases hp : p = 0
    · rw [hp, Init_null]
      intro hc
      cases hc
    · rw [Init_ok h g p hp]
      intro hc
      cases hc

/-- Witness for C6: `Init 1` on the sample host, from the initial variables. -/
theorem Init_fatal_iff_null_witness :
    (1 : Nat) ≠ 0 ∧ Init Host.sample (Globals.initial 32) 1 = .ok ⟨1, 7⟩ ∧
    (Globals.initial 32).HANDLE = 4294967295 :=
  ⟨by decide, (Init_fatal_iff_null Host.sample (Globals.initial 32) 1 32).2.2.2.1 (by decide),
    (Init_fatal_iff_null Host.sample (Globals.initial 32) 1 32).2.2.2.2.2⟩

/-! ## The stored interface pointer over a run -/

theorem step_storage (h : Host) (g g' : Globals) (op : Op) (hinit : g.storage ≠ 0)
    (hstep : step h g op = .ok g') :
    g'.storage ≠ 0 ∧ g'.storage = lastInit g.storage [op] ∧
    ((∀ q, op ≠ .Init q) → g' = g) := by
  cases op with
  | Init q =>
    by_cases hq : q = 0
    · rw [hq] at hstep
      cases hstep
    · have : step h g (.Init q) = .ok ⟨q, h.GetPluginHandle q⟩ := Init_ok h g q hq
      rw [this] at hstep
      injection hstep with hstep
      subst hstep
      exact ⟨hq, rfl, fun hne => absurd rfl (hne q)⟩
  | GetLoadInterface =>
    injection hstep with hstep
    subst hstep
    exact ⟨hinit, rfl, fun _ => rfl⟩
  | GetTrampolineInterface =>
    simp only [step, GetTrampolineInterface_ok h g hinit] at hstep
    injection hstep with hstep
    subst hstep
    exact ⟨hinit, rfl, fun _ => rfl⟩
  | GetMessagingInterface =>
    simp only [step, GetMessagingInterface_ok h g hinit] at hstep
    injection hstep with hstep
    subst hstep
    exact ⟨hinit, rfl, fun _ => rfl⟩
  | AllocTrampoline a_size a_useSFSEReserve =>
    simp only [step] at hstep
    cases hres : (AllocTrampoline h g a_size a_useSFSEReserve).2 with
    | error e =>
      rw [hres] at hstep
      cases hstep
    | ok mem =>
      rw [hres] at hstep
      injection hstep with hstep
      subst hstep
      exact ⟨hinit, rfl, fun _ => rfl⟩

theorem run_storage (h : Host) (ops : List Op) :
    ∀ (g g' : Globals), g.storage ≠ 0 → run h g ops = .ok g' →
      g'.storage ≠ 0 ∧ g'.storage = lastInit g.storage ops := by
  induction ops with
  | nil =>
    intro g g' hinit hrun
    injection hrun with hrun
    subst hrun
    exact ⟨hinit, rfl⟩
  | cons op ops ih =>
    intro g g' hinit hrun
    cases hs : step h g op with
    | error e =>
      simp only [run, hs] at hrun
      cases hrun
    | ok g1 =>
      simp only [run, hs] at hrun
      obtain ⟨h1, h2, _⟩ := step_storage h g g1 op hinit hs
      obtain ⟨h3, h4⟩ := ih g1 g' h1 hrun
      refine ⟨h3, ?_⟩
      rw [h4, h2]
      cases op <;> rfl

theorem lastInit_no_Init (p : Nat) (ops : List Op) (hno : ∀ q, Op.Init q ∉ ops) :
    lastInit p ops = p := by
  induction ops with
  | nil => rfl
  | cons op ops ih =>
    have htail : ∀ q, Op.Init q ∉ ops := fun q hq => hno q (List.mem_cons_of_mem _ hq)
    cases op with
    | Init q => exact absurd (List.mem_cons_self _ _) (hno q)
    | GetLoadInterface => exact ih htail
    | GetTrampolineInterface => exact ih htail
    | GetMessagingInterface => exact ih htail
    | AllocTrampoline a b => exact ih htail

/-- Claim C7 fails as stated: on the sample host, after `Init 1` has succeeded,
the run `GetLoadInterface, Init 2` ends with `detail::storage = 2`, not `1`.
So the stored pointer is not write-once. -/
theorem storage_not_write_once :
    Init Host.sample (Globals.initial 32) 1 = .ok ⟨1, 7⟩ ∧
    run Host.sample ⟨1, 7⟩ [.GetLoadInterface, .Init 2] = .ok ⟨2, 7⟩ ∧
    ¬ (∀ (h : Host) (g g1 g2 : Globals) (p : Nat) (ops : List Op), p ≠ 0 →
        Init h g p = .ok g1 → run h g1 ops = .ok g2 → g2.storage = p) := by
  refine ⟨rfl, rfl, ?_⟩
  intro hall
  have := hall Host.sample (Globals.initial 32) ⟨1, 7⟩ ⟨2, 7⟩ 1 [.GetLoadInterface, .Init 2]
    (by decide) rfl rfl
  exact absurd this (by decide)

/-- Claim C7, amended.  Once `Init p` with a non-null `p` has succeeded, then
after every further sequence of calls that the process survives the stored
pointer is non-null and is the argument of the latest `Init` call (`p` when no
further `Init` was made: the accessors and `AllocTrampoline` do not change
it); a later `Init q` with a non-null `q` succeeds and replaces it by `q`. -/
theorem storage_follows_latest_Init (h : Host) (g g1 g2 : Globals) (p : Nat) (ops : List Op)
    (hp : p ≠ 0) (hInit : Init h g p = .ok g1) (hrun : run h g1 ops = .ok g2) :
    g1.storage = p ∧
    g2.storage ≠ 0 ∧
    g2.storage = lastInit p ops ∧
    ((∀ q, Op.Init q ∉ ops) → g2.storage = p) ∧
    (∀ q, q ≠ 0 → run h g2 [.Init q] = .ok ⟨q, h.GetPluginHandle q⟩) := by
  rw [Init_ok h g p hp] at hInit
  injection hInit with hInit
  subst hInit
  obtain ⟨hne, hlast⟩ := run_storage h ops _ g2 hp hrun
  refine ⟨rfl, hne, hlast, ?_, ?_⟩
  · intro hno
    rw [hlast]
    exact lastInit_no_Init p ops hno
  · intro q hq
    simp only [run, step, Init_ok h g2 q hq]
    rfl

/-- Witness for the amended C7: `Init 1`, then `AllocTrampoline`, `Init 2` and
`GetMessagingInterface` on the sample host. -/
theorem storage_follows_latest_Init_witness :
    (1 : Nat) ≠ 0 ∧ Init Host.sample (Globals.initial 32) 1 = .ok ⟨1, 7⟩ ∧
    run Host.sample ⟨1, 7⟩ [.AllocTrampoline 5 true, .Init 2, .GetMessagingInterface]
      = .ok ⟨2, 7⟩ ∧
    (⟨2, 7⟩ : Globals).storage
      = lastInit 1 [.AllocTrampoline 5 true, .Init 2, .GetMessagingInterface] :=
  ⟨by decide, rfl, rfl,
    (storage_follows_latest_Init Host.sample (Globals.initial 32) ⟨1, 7⟩ ⟨2, 7⟩ 1
      [.AllocTrampoline 5 true, .Init 2, .GetMessagingInterface] (by decide) rfl rfl).2.2.1⟩

/-! ## The capability accessors -/

/-- Claim C8.  The identifiers are `kInvalid = 0`, `kMessaging = 1`,
`kTrampoline = 2`, and the accessors use them crosswise: on an initialised stub
`GetMessagingInterface` returns the host's `QueryInterface` answer for
`kTrampoline` and `GetTrampolineInterface` the answer for `kMessaging`; a null
answer is returned as null, not turned into an error; and the interface on
which `AllocTrampoline` calls `AllocateFromBranchPool` is the answer for
`kMessaging`. -/
theorem accessors_swapped (h : Host) (g : Globals) (a_size : Nat) (a_useSFSEReserve : Bool)
    (hinit : g.storage ≠ 0) :
    LoadInterface.kInvalid = 0 ∧ LoadInterface.kMessaging = 1 ∧ LoadInterface.kTrampoline = 2 ∧
    GetMessagingInterface h g = .ok (h.QueryInterface g.storage LoadInterface.kTrampoline) ∧
    GetTrampolineInterface h g = .ok (h.QueryInterface g.storage LoadInterface.kMessaging) ∧
    (h.QueryInterface g.storage LoadInterface.kTrampoline = 0 →
      GetMessagingInterface h g = .ok 0) ∧
    (h.QueryInterface g.storage LoadInterface.kMessaging = 0 →
      GetTrampolineInterface h g = .ok 0) ∧
    (∀ intfc handle size,
      Event.AllocateFromBranchPool intfc handle size
          ∈ (AllocTrampoline h g a_size a_useSFSEReserve).1 →
      intfc = h.QueryInterface g.storage LoadInterface.kMessaging) := by
  have hm := GetMessagingInterface_ok h g hinit
  have ht := GetTrampolineInterface_ok h g hinit
  refine ⟨rfl, rfl, rfl, hm, ht, ?_, ?_, ?_⟩
  · intro h0
    rw [hm]
    exact congrArg Except.ok h0
  · intro h0
    rw [ht]
    exact congrArg Except.ok h0
  · intro intfc handle size hmem
    show intfc = h.QueryInterface g.storage 1
    rw [AllocTrampoline_init h g a_size a_useSFSEReserve hinit] at hmem
    by_cases hc : h.QueryInterface g.storage 1 ≠ 0 ∧ a_useSFSEReserve = true
    · rw [if_pos hc] at hmem
      by_cases hpool :
          h.AllocateFromBranchPool (h.QueryInterface g.storage 1) g.HANDLE a_size ≠ 0
      · rw [if_pos hpool] at hmem
        simp only [List.mem_singleton, Event.AllocateFromBranchPool.injEq] at hmem
        exact hmem.1
      · rw [if_neg hpool] at hmem
        simp only [AllocTrampoline.localPage] at hmem
        split_ifs at hmem <;> simp at hmem <;> exact hmem.1
    · rw [if_neg hc] at hmem
      simp only [AllocTrampoline.localPage] at hmem
      split_ifs at hmem <;> simp at hmem

/-- Witness for C8: on the sample host, whose messaging interface sits at 64
under identifier 1 and whose trampoline interface sits at 128 under identifier
2, `GetMessagingInterface` returns 128 and `GetTrampolineInterface` 64. -/
theorem accessors_swapped_witness :
    (⟨1, 7⟩ : Globals).storage ≠ 0 ∧
    GetMessagingInterface Host.sample ⟨1, 7⟩ = .ok 128 ∧
    GetTrampolineInterface Host.sample ⟨1, 7⟩ = .ok 64 :=
  ⟨by decide, (accessors_swapped Host.sample ⟨1, 7⟩ 5 true (by decide)).2.2.2.1,
    (accessors_swapped Host.sample ⟨1, 7⟩ 5 true (by decide)).2.2.2.2.1⟩

end SFSE
